import Mathlib

/-!
Verification of the kaos chaos-testing harness (vertexclique/kaos).

This file gives a shallow embedding of the harness core found in
`src/lib.rs` (test registration), `src/run.rs` (expansion, filtering,
trial execution, aggregation) and settles the frozen claims about it.

Modelling conventions:
- `PathBuf`/`OsString` values are `String`s (all paths of interest are UTF-8).
- `Duration` values are natural numbers of milliseconds.
- `isize`/`usize` are `Int`/`Nat` with explicit two's-complement casts at
  a 64-bit word size.
- The external collaborators (the cargo build/run modules, the message
  printer, the glob resolver and the proptest runner) are modelled as
  explicit parameters/oracles; per-invocation outcomes of the build+run
  collaborators are supplied by an `Env` oracle indexed by a global
  invocation counter.
- A Rust panic is modelled by the `RunOutcome.panicked` value (inside a
  proptest closure, where proptest catches unwinds, by an error value).
-/

namespace Kaos

/-- Word size of the target: `isize`/`usize` are 64-bit. -/
def wordBits : Nat := 64

/-- `usize::MAX`. -/
def usizeMax : Nat := 2 ^ wordBits - 1

/-- `!0` at type `isize`: all bits set, i.e. `-1` in two's complement.
This is the sentinel `Runs::available` stores in `max_surge` (src/lib.rs:193)
and that `Test::run` compares against (src/run.rs:228). -/
def isizeAllOnes : Int := -1

/-- `m as isize` for a `usize` value `m < 2^64`: two's-complement
reinterpretation, as performed by `max_surge as isize` in
`Runs::chaotic` (src/lib.rs:203). -/
def usizeToIsize (m : Nat) : Int :=
  if m < 2 ^ (wordBits - 1) then (m : Int) else (m : Int) - 2 ^ wordBits

/-- `enum Expected` (src/lib.rs:175-179). -/
inductive Expected where
  | Available
  | Chaotic
deriving DecidableEq, Repr

/-- `struct Test` (src/lib.rs:167-173): one declared entry.
`path` is the target path, `duration` the statically configured
availability duration (ms), `max_surge` the `isize`-cast surge bound. -/
structure Test where
  path : String
  duration : Option Nat
  max_surge : Int
  expected : Expected
deriving DecidableEq, Repr

/-- `Runs::available` (src/lib.rs:189-196): pushes one `Available` entry with
`duration = Some duration` and `max_surge = !0`. The `Runs`/`RefCell`
wrapper is modelled by passing the accumulated test list explicitly. -/
def Runs.available (tests : List Test) (path : String) (duration : Nat) : List Test :=
  tests ++ [{ path := path, duration := some duration, max_surge := isizeAllOnes,
              expected := Expected.Available }]

/-- `Runs::chaotic` (src/lib.rs:198-207): pushes `run_count` identical
`Chaotic` entries, each with `duration = None` and
`max_surge = max_surge as isize`. -/
def Runs.chaotic (tests : List Test) (path : String) (run_count : Nat) (max_surge : Nat) :
    List Test :=
  tests ++ List.replicate run_count
    { path := path, duration := none, max_surge := usizeToIsize max_surge,
      expected := Expected.Chaotic }

/-- Modelled from the spec: the crate error type (src/error.rs is not under
src/; only its constructors used by src/run.rs appear here).
`AvailabilityLow expected found` stands for
`Error::ChaosTestFailed("availability is low. Expected at least: {expected}, Found: {found}")`
(src/run.rs:300-304) with the two humantime-formatted durations carried
structurally; `PropFail c` stands for the error a failing proptest run is
converted into by the `?` at src/run.rs:269; `ClosurePanic` stands for a
panic raised inside the proptest closure (caught by proptest and
turned into a failing case); `GlobPattern` is a glob resolution error. -/
inductive Error where
  | CargoFail
  | RunFailed
  | AvailabilityLow (expected found : Nat)
  | GlobPattern (pattern : String)
  | ClosurePanic
  | PropFail (c : Error)
deriving DecidableEq, Repr

/-- Result of one `Test::run`/`ExpandedTest::run` call: `Ok(())`, `Err(e)`,
or a Rust panic unwinding out of the call. -/
inductive RunOutcome where
  | ok
  | err (e : Error)
  | panicked
deriving DecidableEq, Repr

/-- Modelled from the spec: the observable outcome of one build+run
interaction with the external cargo collaborators (src/cargo.rs is not
under src/). `buildSuccess` is `output.status.success()` of
`cargo::build_test`, `runSuccess` the exit status of `cargo::run_test`;
`buildMs`/`runMs` are the wall-clock milliseconds those two phases take. -/
structure ExecResult where
  buildSuccess : Bool
  buildMs : Nat
  runSuccess : Bool
  runMs : Nat
deriving DecidableEq, Repr

/-- The external world one harness invocation interacts with:
`pathExists p` models `Path::exists` for the target path (src/run.rs:336-344);
`exec c` is the outcome of the `c`-th build+run pair of the invocation
(`c` is a global counter of executor invocations);
`samples r i` is the `i`-th value the `r`-th created proptest
`TestRunner` draws from its range strategy. -/
structure Env where
  pathExists : String → Bool
  exec : Nat → ExecResult
  samples : Nat → Nat → Int

/-- The elapsed time `Test::run` actually measures: `Instant::now()` is taken
at src/run.rs:233 (resp. :274) BEFORE `cargo::build_test` (src/run.rs:238,
:279) and read after `check_available` returns (src/run.rs:257, :298), so it
spans the build phase and, when the build succeeded, the run phase. -/
def elapsedOf (e : ExecResult) : Nat :=
  e.buildMs + (if e.buildSuccess then e.runMs else 0)

/-- Modelled from the spec's words (for the refinement comparison of C1):
"measuring elapsed wall-clock time from immediately before spawn to process
exit (build time is excluded from this measurement)" — i.e. the run phase
only. -/
def specElapsedOf (e : ExecResult) : Nat :=
  if e.buildSuccess then e.runMs else 0

/-- Number of cases one `runner.run(&strategy, closure)` call executes.
This models the external proptest dependency used at src/run.rs:224,231:
`TestRunner::default()` carries proptest's default `Config`, whose default
case count is 256. -/
def defaultCases : Nat := 256

/-- The proptest closure of the chaotic branch (src/run.rs:231-268) run on
one drawn value `v`, at executor-invocation counter `clock`:
`Duration::from_millis(v.try_into().unwrap())` panics for `v < 0`;
`check_exists(&self.path).unwrap()` panics for a missing path (both panics
are caught by proptest and become failing cases);
otherwise one build+run pair is consumed from the environment,
`check_available` classifies it (src/run.rs:311-333), and the closure fails
with the availability message when the measured elapsed time is below
`Duration::from_millis(v)` (src/run.rs:258-265), else returns the
`check_available` result. -/
def runCase (env : Env) (t : Test) (v : Int) (clock : Nat) : Except Error Unit × Nat :=
  if v < 0 then (Except.error Error.ClosurePanic, clock)
  else if env.pathExists t.path = false then (Except.error Error.ClosurePanic, clock)
  else
    let e := env.exec clock
    let elapsed := elapsedOf e
    let res : Except Error Unit :=
      if e.buildSuccess = false then Except.error Error.CargoFail
      else if e.runSuccess then Except.ok () else Except.error Error.RunFailed
    if elapsed < v.toNat then (Except.error (Error.AvailabilityLow v.toNat elapsed), clock + 1)
    else (res, clock + 1)

/-- Model of the external proptest `TestRunner::run` loop: the runner with
creation index `ridx` executes its drawn cases in order (`fuel` cases
remaining, `i` the next case index), stopping at the first failing case.
Shrinking only re-runs the closure to minimise the reported value and does
not change whether the run fails, so it is abstracted away; the reported
error is the one of the first failing case. -/
def runCases (env : Env) (t : Test) (ridx : Nat) : Nat → Nat → Nat → Except Error Unit × Nat
  | 0, _, clock => (Except.ok (), clock)
  | fuel + 1, i, clock =>
    match runCase env t (env.samples ridx i) clock with
    | (Except.ok _, clock1) => runCases env t ridx fuel (i + 1) clock1
    | (Except.error c, clock1) => (Except.error c, clock1)

/-- The mutable cursors of one harness invocation: `test_idx` is
`Project::test_idx` (src/lib-model: incremented only in the chaotic branch,
src/run.rs:229); `clock` counts executor (build+run) invocations; `runners`
counts `TestRunner::default()` constructions (src/run.rs:224), i.e.
pseudo-random-source creations/seedings. -/
structure StepState where
  test_idx : Nat
  clock : Nat
  runners : Nat
deriving DecidableEq, Repr

/-- `Test::run` (src/run.rs:222-309). `surges` and `durations` are
`project.surges` and `project.durations`; the branch is dispatched on
`project.surges[project.test_idx]` (NOT on the current entry), a fresh
`TestRunner` is created on every call, and only the chaotic branch
increments `test_idx`. In the available branch
`project.durations[project.test_idx].unwrap()` panics when that slot is
`None`; `0..max_surge` with `max_surge <= 0` makes proptest panic when it
tries to sample the empty range. -/
def Test.run (env : Env) (surges : List Int) (durations : List (Option Nat))
    (t : Test) (st : StepState) : RunOutcome × StepState :=
  let st0 : StepState := ⟨st.test_idx, st.clock, st.runners + 1⟩
  match surges[st0.test_idx]? with
  | none => (RunOutcome.panicked, st0)
  | some max_surge =>
    if max_surge ≠ isizeAllOnes then
      let ridx := st.runners
      let st1 : StepState := ⟨st0.test_idx + 1, st0.clock, st0.runners⟩
      if max_surge ≤ 0 then (RunOutcome.panicked, st1)
      else
        match runCases env t ridx defaultCases 0 st1.clock with
        | (Except.ok _, clock1) => (RunOutcome.ok, ⟨st1.test_idx, clock1, st1.runners⟩)
        | (Except.error c, clock1) =>
          (RunOutcome.err (Error.PropFail c), ⟨st1.test_idx, clock1, st1.runners⟩)
    else
      match durations[st0.test_idx]? with
      | none => (RunOutcome.panicked, st0)
      | some none => (RunOutcome.panicked, st0)
      | some (some d) =>
        if env.pathExists t.path = false then (RunOutcome.panicked, st0)
        else
          let e := env.exec st0.clock
          let st2 : StepState := ⟨st0.test_idx, st0.clock + 1, st0.runners⟩
          let elapsed := elapsedOf e
          if elapsed < d then (RunOutcome.err (Error.AvailabilityLow d elapsed), st2)
          else if e.buildSuccess = false then (RunOutcome.err Error.CargoFail, st2)
          else if e.runSuccess then (RunOutcome.ok, st2)
          else (RunOutcome.err Error.RunFailed, st2)

/-- Character-level decimal digit value, used to parse the names
`format!("kaos{:03}", i)` produces back into their index. -/
def digitVal (c : Char) : Nat := c.toNat - 48

def decStep (acc : Nat) (c : Char) : Nat := acc * 10 + digitVal c

/-- Value of a decimal digit string. -/
def decVal (l : List Char) : Nat := l.foldl decStep 0

/-- Left-pad a string with `'0'` to width `w`: the `{:03}` format padding. -/
def zeroPad (w : Nat) (s : String) : String :=
  ⟨List.replicate (w - s.length) '0' ++ s.data⟩

/-- `bin_name` (src/run.rs:362-364): `Name(format!("kaos{:03}", i))`. -/
def bin_name (i : Nat) : String := "kaos" ++ zeroPad 3 (Nat.repr i)

/-- `struct ExpandedTest` (src/run.rs:346-351). -/
structure ExpandedTest where
  name : String
  test : Test
  error : Option Error
deriving DecidableEq, Repr

/-- Bool lexicographic order on char lists (byte order on the paths the
harness sorts; `paths.sort()` at src/run.rs:358 sorts `PathBuf`s). -/
def lexLe : List Char → List Char → Bool
  | [], _ => true
  | _ :: _, [] => false
  | a :: as, b :: bs =>
    if a.toNat < b.toNat then true
    else if b.toNat < a.toNat then false
    else lexLe as bs

def pathLe (a b : String) : Bool := lexLe a.data b.data

/-- `paths.sort()` (src/run.rs:358): stable sort in lexicographic order.
On a linear order the sorted permutation of a list is unique, so insertion
sort is extensionally the same function as Rust's driftsort. -/
def sortPaths (l : List String) : List String :=
  List.insertionSort (fun a b => pathLe a b = true) l

/-- The local `glob` helper of `expand_globs` (src/run.rs:354-360):
resolve the pattern against the filesystem (the resolver is the external
`glob` crate, passed as `fsGlob`), propagating failure, and sort the
matches. -/
def globSorted (fsGlob : String → Except Error (List String)) (pattern : String) :
    Except Error (List String) :=
  match fsGlob pattern with
  | Except.ok paths => Except.ok (sortPaths paths)
  | Except.error e => Except.error e

/-- One iteration of the `expand_globs` loop body (src/run.rs:368-397):
wildcard paths are glob-resolved, each match pushed with a fresh
`bin_name(vec.len())` and the spec's mode; a failed resolution pushes a
single placeholder carrying the error; non-wildcard paths push a single
trial. -/
def expandStep (fsGlob : String → Except Error (List String))
    (acc : List ExpandedTest) (t : Test) : List ExpandedTest :=
  if t.path.data.contains '*' then
    match globSorted fsGlob t.path with
    | Except.ok paths =>
      paths.foldl (fun a p =>
        a ++ [{ name := bin_name a.length,
                test := { path := p, duration := t.duration, max_surge := t.max_surge,
                          expected := t.expected },
                error := none }]) acc
    | Except.error e => acc ++ [{ name := bin_name acc.length, test := t, error := some e }]
  else acc ++ [{ name := bin_name acc.length, test := t, error := none }]

/-- `expand_globs` (src/run.rs:353-400). -/
def expand_globs (fsGlob : String → Except Error (List String)) (tests : List Test) :
    List ExpandedTest :=
  tests.foldl (expandStep fsGlob) []

/-- Rust `str::contains` on the lossy path string (src/run.rs:444). -/
def strContains (s sub : String) : Bool :=
  s.data.tails.any (fun tail => sub.data.isPrefixOf tail)

/-- The recognized filter prefix `"kaos="` (src/run.rs:428). -/
def filterToken : String := "kaos="

/-- The filter extraction of `filter` (src/run.rs:425-435): an argument is a
filter token iff it starts with `"kaos="` and is not exactly `"kaos="`; the
filter substring is what follows the prefix. -/
def filtersOf (args : List String) : List String :=
  args.filterMap fun arg =>
    if filterToken.data.isPrefixOf arg.data && arg != filterToken then
      some ⟨arg.data.drop filterToken.data.length⟩
    else none

/-- `filter` (src/run.rs:424-446), with the invocation arguments passed
explicitly: no filters present leaves the list unchanged, otherwise a trial
is retained iff its path contains at least one filter substring. -/
def filterTests (args : List String) (tests : List ExpandedTest) : List ExpandedTest :=
  let filters := filtersOf args
  if filters.isEmpty then tests
  else tests.filter fun t => filters.any fun f => strContains t.test.path f

/-- `Runner::prepare`'s surge vector (src/run.rs:89): one `max_surge`
per expanded test. -/
def surgesOf (tests : List ExpandedTest) : List Int :=
  tests.map fun t => t.test.max_surge

/-- `Runner::prepare`'s static duration vector (src/run.rs:91-96):
`vec![None; len]`, then ONLY the position of the FIRST surge equal to `!0`
(if any) receives that test's configured duration. -/
def staticDurations (tests : List ExpandedTest) : List (Option Nat) :=
  let surges := surgesOf tests
  let base : List (Option Nat) := List.replicate surges.length none
  match surges.findIdx? (fun s => s == isizeAllOnes) with
  | some i =>
    match tests[i]? with
    | some t => base.set i t.test.duration
    | none => base
  | none => base

/-- `ExpandedTest::run` (src/run.rs:402-413): a placeholder trial returns
its recorded expansion error as this entry's failure; otherwise the trial
itself runs. -/
def ExpandedTest.run (env : Env) (surges : List Int) (durations : List (Option Nat))
    (t : ExpandedTest) (st : StepState) : RunOutcome × StepState :=
  match t.error with
  | none => Test.run env surges durations t.test st
  | some e => (RunOutcome.err e, st)

def isErr : RunOutcome → Bool
  | RunOutcome.err _ => true
  | _ => false

def isPanicked : RunOutcome → Bool
  | RunOutcome.panicked => true
  | _ => false

/-- The `for test in tests` loop of `Runner::run` (src/run.rs:58-63): each
entry runs in order; an `Err` outcome is counted and reported and the loop
continues; a panic unwinds out of the loop, aborting the harness. -/
def runLoop (env : Env) (surges : List Int) (durations : List (Option Nat)) :
    List ExpandedTest → StepState → List RunOutcome × StepState
  | [], st => ([], st)
  | t :: rest, st =>
    match ExpandedTest.run env surges durations t st with
    | (RunOutcome.panicked, st1) => ([RunOutcome.panicked], st1)
    | (o, st1) =>
      let r := runLoop env surges durations rest st1
      (o :: r.1, r.2)

/-- The report of one harness invocation: per-entry outcomes in order,
failure count, entry count, whether a trial panic aborted the loop, the
final cursor state, and the harness-level failure message raised at the end
(`None` when swallowed or when there is nothing to raise). -/
structure HarnessReport where
  outcomes : List RunOutcome
  failures : Nat
  len : Nat
  aborted : Bool
  finalState : StepState
  raised : Option String
deriving DecidableEq, Repr

/-- `Runner::run` (src/run.rs:41-71): expand the declared entries, filter
them, prepare the project (its name is `format!("{}-tests", crate_name)`,
src/run.rs:108), run every entry counting failures, and finally
`panic!("{} of {} tests failed", failures, len)` iff some entry failed and
the project name is not `"kaos-tests"` (the nested self-test guard,
src/run.rs:68-70). The harness-fatal `prepare` error path is out of scope:
`prepare` is modelled as succeeding. -/
def Runner.run (env : Env) (fsGlob : String → Except Error (List String))
    (args : List String) (crate_name : String) (specs : List Test) : HarnessReport :=
  let tests := filterTests args (expand_globs fsGlob specs)
  let surges := surgesOf tests
  let durations := staticDurations tests
  let r := runLoop env surges durations tests ⟨0, 0, 0⟩
  let failures := r.1.countP isErr
  let aborted := r.1.any isPanicked
  let projName := crate_name ++ "-tests"
  { outcomes := r.1
    failures := failures
    len := tests.length
    aborted := aborted
    finalState := r.2
    raised :=
      if aborted then none
      else if 0 < failures ∧ projName ≠ "kaos-tests" then
        some (Nat.repr failures ++ " of " ++ Nat.repr tests.length ++ " tests failed")
      else none }


/-! ### Concrete fixtures used by witnesses and counterexamples -/

/-- An `Available` declared entry, as `Runs::available` constructs it. -/
def testAvail (p : String) (d : Nat) : Test :=
  { path := p, duration := some d, max_surge := isizeAllOnes, expected := Expected.Available }

/-- Environment: every path exists, every build takes 0 ms and succeeds,
every run takes 7 ms and exits cleanly, every drawn sample is 0. -/
def envAllOk7 : Env :=
  { pathExists := fun _ => true, exec := fun _ => ⟨true, 0, true, 7⟩, samples := fun _ _ => 0 }

/-- Environment: builds take 5 ms and succeed, runs take 0 ms and exit
cleanly. -/
def envBuild5Run0 : Env :=
  { pathExists := fun _ => true, exec := fun _ => ⟨true, 5, true, 0⟩, samples := fun _ _ => 0 }

/-- Environment: builds succeed instantly, the target process runs 3 ms and
exits with a non-zero status. -/
def envRunFail3 : Env :=
  { pathExists := fun _ => true, exec := fun _ => ⟨true, 0, false, 3⟩, samples := fun _ _ => 0 }

/-- A filesystem on which every glob pattern resolves to no matches. -/
def fsEmpty : String → Except Error (List String) := fun _ => Except.ok []

/-- A filesystem on which every glob pattern fails to resolve. -/
def fsFail : String → Except Error (List String) := fun p => Except.error (Error.GlobPattern p)

/-- A filesystem on which every pattern matches two files, returned in
non-sorted order. -/
def fsPair : String → Except Error (List String) := fun _ => Except.ok ["b/t2.rs", "a/t1.rs"]

/-- A concrete expanded trial. -/
def etEx : ExpandedTest := { name := bin_name 0, test := testAvail "a" 1, error := none }

/-- The per-spec contribution of `expand_globs` before names are assigned:
each spec contributes its single trial, its per-match trials, or its error
placeholder (derived decomposition of src/run.rs:368-397, proved equal to
`expand_globs` below). -/
def expandPaths (fsGlob : String → Except Error (List String)) (t : Test) :
    List (Test × Option Error) :=
  if t.path.data.contains '*' then
    match globSorted fsGlob t.path with
    | Except.ok paths =>
      paths.map fun p =>
        ({ path := p, duration := t.duration, max_surge := t.max_surge,
           expected := t.expected }, none)
    | Except.error e => [(t, some e)]
  else [(t, none)]

/-! ### Decimal representation: `format!("kaos{:03}", i)` is injective -/

theorem foldl_decStep (l : List Char) (a : Nat) :
    l.foldl decStep a = a * 10 ^ l.length + decVal l := by
  induction l generalizing a with
  | nil => simp [decVal]
  | cons c cs ih =>
    have h1 : (c :: cs).foldl decStep a = cs.foldl decStep (decStep a c) := rfl
    have h2 : decVal (c :: cs) = cs.foldl decStep (decStep 0 c) := rfl
    rw [h1, ih, h2, ih (decStep 0 c)]
    simp only [decStep, List.length_cons]
    ring

theorem toDigitsCore_append (fuel n : Nat) (ds : List Char) :
    Nat.toDigitsCore 10 fuel n ds = Nat.toDigitsCore 10 fuel n [] ++ ds := by
  induction fuel generalizing n ds with
  | zero => simp [Nat.toDigitsCore]
  | succ fuel ih =>
    simp only [Nat.toDigitsCore]
    by_cases h : n / 10 = 0
    · simp [h]
    · simp only [h, if_false]
      rw [ih (n / 10) (Nat.digitChar (n % 10) :: ds), ih (n / 10) [Nat.digitChar (n % 10)]]
      simp

theorem digitVal_digitChar (r : Nat) (h : r < 10) : digitVal (Nat.digitChar r) = r := by
  interval_cases r <;> decide

theorem decVal_toDigitsCore (fuel : Nat) : ∀ n, n < 10 ^ fuel →
    decVal (Nat.toDigitsCore 10 fuel n []) = n := by
  induction fuel with
  | zero =>
    intro n hn
    simp only [pow_zero, Nat.lt_one_iff] at hn
    subst hn
    decide
  | succ fuel ih =>
    intro n hn
    simp only [Nat.toDigitsCore]
    by_cases h : n / 10 = 0
    · have hlt : n < 10 := by omega
      have hd : digitVal (Nat.digitChar (n % 10)) = n % 10 :=
        digitVal_digitChar (n % 10) (Nat.mod_lt _ (by norm_num))
      simp only [h, if_true, decVal, List.foldl_cons, List.foldl_nil, decStep,
        Nat.zero_mul, Nat.zero_add, hd]
      omega
    · simp only [h, if_false]
      rw [toDigitsCore_append]
      have hdiv : n / 10 < 10 ^ fuel := by
        rw [Nat.div_lt_iff_lt_mul (by norm_num : 0 < 10)]
        calc n < 10 ^ (fuel + 1) := hn
          _ = 10 ^ fuel * 10 := by ring
      have hrec := ih (n / 10) hdiv
      simp only [decVal, List.foldl_append] at hrec ⊢
      rw [hrec, List.foldl_cons, List.foldl_nil]
      have hd : digitVal (Nat.digitChar (n % 10)) = n % 10 :=
        digitVal_digitChar (n % 10) (Nat.mod_lt _ (by norm_num))
      simp only [decStep, hd]
      omega

theorem decVal_repr (n : Nat) : decVal (Nat.repr n).data = n := by
  have h : n < 10 ^ (n + 1) :=
    Nat.lt_of_lt_of_le (Nat.lt_pow_self (by norm_num) n)
      (Nat.pow_le_pow_right (by norm_num) (Nat.le_succ n))
  exact decVal_toDigitsCore (n + 1) n h

theorem decVal_replicate_zero_append (k : Nat) (l : List Char) :
    decVal (List.replicate k '0' ++ l) = decVal l := by
  induction k with
  | zero => simp
  | succ k ih =>
    have h : decVal (List.replicate (k + 1) '0' ++ l) =
        (List.replicate k '0' ++ l).foldl decStep (decStep 0 '0') := by
      simp [decVal, List.replicate_succ]
    rw [h]
    have hz : decStep 0 '0' = 0 := by decide
    rw [hz]
    exact ih

/-- Decode the index back out of a `bin_name`. -/
def binIdx (s : String) : Nat := decVal (s.data.drop 4)

theorem binIdx_bin_name (i : Nat) : binIdx (bin_name i) = i := by
  have hdata : (bin_name i).data =
      'k' :: 'a' :: 'o' :: 's' ::
        (List.replicate (3 - (Nat.repr i).length) '0' ++ (Nat.repr i).data) := rfl
  simp only [binIdx, hdata, List.drop_succ_cons, List.drop_zero]
  rw [decVal_replicate_zero_append]
  exact decVal_repr i

theorem bin_name_injective : Function.Injective bin_name := by
  intro i j h
  have h2 := congrArg binIdx h
  rwa [binIdx_bin_name, binIdx_bin_name] at h2

/-! ### The path order used for glob sorting -/

theorem lexLe_total : ∀ x y, lexLe x y = true ∨ lexLe y x = true := by
  intro x
  induction x with
  | nil => intro y; left; rfl
  | cons a as ih =>
    intro y
    cases y with
    | nil => right; rfl
    | cons b bs =>
      rcases Nat.lt_trichotomy a.toNat b.toNat with h | h | h
      · left; simp [lexLe, h]
      · rcases ih bs with h2 | h2
        · left; simp [lexLe, h, h2]
        · right; simp [lexLe, h.symm, h2]
      · right; simp [lexLe, h]

theorem lexLe_trans : ∀ x y z, lexLe x y = true → lexLe y z = true → lexLe x z = true := by
  intro x
  induction x with
  | nil => intro y z _ _; rfl
  | cons a as ih =>
    intro y z hxy hyz
    cases y with
    | nil => simp [lexLe] at hxy
    | cons b bs =>
      cases z with
      | nil => simp [lexLe] at hyz
      | cons c cs =>
        rcases Nat.lt_trichotomy a.toNat b.toNat with hab | hab | hab
        · rcases Nat.lt_trichotomy b.toNat c.toNat with hbc | hbc | hbc
          · simp [lexLe, Nat.lt_trans hab hbc]
          · simp [lexLe, hbc ▸ hab]
          · exfalso; simp [lexLe, Nat.lt_asymm hbc, hbc] at hyz
        · rcases Nat.lt_trichotomy b.toNat c.toNat with hbc | hbc | hbc
          · simp [lexLe, hab ▸ hbc]
          · have hac : a.toNat = c.toNat := hab.trans hbc
            simp only [lexLe, hab.not_lt, if_false, hab.symm.not_lt] at hxy
            simp only [lexLe, hbc.not_lt, if_false, hbc.symm.not_lt] at hyz
            simp [lexLe, hac.not_lt, hac.symm.not_lt, ih bs cs hxy hyz]
          · exfalso; simp [lexLe, Nat.lt_asymm hbc, hbc] at hyz
        · exfalso; simp [lexLe, Nat.lt_asymm hab, hab] at hxy

instance : IsTotal String (fun a b => pathLe a b = true) :=
  ⟨fun a b => lexLe_total a.data b.data⟩

instance : IsTrans String (fun a b => pathLe a b = true) :=
  ⟨fun a b c => lexLe_trans a.data b.data c.data⟩

theorem sortPaths_sorted (l : List String) :
    List.Sorted (fun a b => pathLe a b = true) (sortPaths l) :=
  List.sorted_insertionSort _ l

theorem sortPaths_perm (l : List String) : (sortPaths l).Perm l :=
  List.perm_insertionSort _ l

/-! ### The available branch of `Test::run` as a single equation -/

/-- For a plan whose current slot is an `Available` entry with stored
duration `d`, `Test::run` first checks the measured elapsed time (build
included) against `d` and only otherwise reports the `check_available`
classification (src/run.rs:272-308). -/
theorem availRun_eq (env : Env) (t : Test) (d : Nat)
    (hp : env.pathExists t.path = true) :
    (Test.run env [isizeAllOnes] [some d] t ⟨0, 0, 0⟩).1 =
      (if elapsedOf (env.exec 0) < d then
        RunOutcome.err (Error.AvailabilityLow d (elapsedOf (env.exec 0)))
      else if (env.exec 0).buildSuccess = false then RunOutcome.err Error.CargoFail
      else if (env.exec 0).runSuccess then RunOutcome.ok
      else RunOutcome.err Error.RunFailed) := by
  simp only [Test.run, List.getElem?_cons_zero, ne_eq, not_true_eq_false, if_false, hp,
    Bool.true_eq_false]
  split
  · rfl
  · split
    · rfl
    · split <;> rfl

/-- C1: the claim says the elapsed time compared against the required
duration runs from immediately before the target process is spawned to its
exit, excluding build time. In the code `Instant::now()` precedes
`cargo::build_test`, so the measured time is the build time plus the
spec's run-only measurement, and it is this build-inclusive quantity the
availability comparison uses. -/
theorem C1_elapsed_includes_build (env : Env) (t : Test) (d : Nat)
    (hp : env.pathExists t.path = true) :
    elapsedOf (env.exec 0) = (env.exec 0).buildMs + specElapsedOf (env.exec 0)
    ∧ (Test.run env [isizeAllOnes] [some d] t ⟨0, 0, 0⟩).1 =
        (if elapsedOf (env.exec 0) < d then
          RunOutcome.err (Error.AvailabilityLow d (elapsedOf (env.exec 0)))
        else if (env.exec 0).buildSuccess = false then RunOutcome.err Error.CargoFail
        else if (env.exec 0).runSuccess then RunOutcome.ok
        else RunOutcome.err Error.RunFailed) :=
  ⟨rfl, availRun_eq env t d hp⟩

/-- C1 counterexample: an `Available` trial requiring 3 ms whose build takes
5 ms while the target process itself runs 0 ms. Under the claim's
run-only measurement (0 ms < 3 ms) the trial must fail with an
availability error; the code passes it, because its measurement starts
before the build. -/
theorem C1_counterexample :
    (Test.run envBuild5Run0 [isizeAllOnes] [some 3] (testAvail "a" 3) ⟨0, 0, 0⟩).1 =
      RunOutcome.ok
    ∧ specElapsedOf (envBuild5Run0.exec 0) < 3
    ∧ elapsedOf (envBuild5Run0.exec 0) = 5 := by decide

/-- C1 witness: concrete instance of `C1_elapsed_includes_build`. -/
theorem C1_witness :
    (Test.run envAllOk7 [isizeAllOnes] [some 3] (testAvail "a" 3) ⟨0, 0, 0⟩).1 =
      RunOutcome.ok := by
  rw [(C1_elapsed_includes_build envAllOk7 (testAvail "a" 3) 3 rfl).2]
  decide

/-- C2 (code-bug evaluation): a plan of two `Available` entries requiring
5 ms and 10 ms, against an artifact that builds instantly and runs 7 ms.
`Runner::prepare` stores a duration only at the FIRST `!0` surge position
(`[some 5, none]`), and the available branch of `Test::run` never
increments `test_idx`, so the second trial is compared against the first
entry's 5 ms and passes (7 >= 5), although its own requirement is 10 ms
and 7 < 10: the code does not use each entry's own configured duration. -/
theorem C2_second_available_entry_misses_own_duration :
    staticDurations (expand_globs fsEmpty (Runs.available (Runs.available [] "a" 5) "b" 10))
      = [some 5, none]
    ∧ (Runner.run envAllOk7 fsEmpty [] "my"
        (Runs.available (Runs.available [] "a" 5) "b" 10)).outcomes
      = [RunOutcome.ok, RunOutcome.ok]
    ∧ (Runner.run envAllOk7 fsEmpty [] "my"
        (Runs.available (Runs.available [] "a" 5) "b" 10)).failures = 0
    ∧ elapsedOf (envAllOk7.exec 0) = 7 := by decide

/-- C3: corrected. The availability comparison is performed whether or not
the target process exited successfully, and when `elapsed < d` its
`AvailabilityLow` error is returned even for a crashed process: the
availability classification takes precedence over `RunFailed`, not the
other way around. `RunFailed` is reported exactly when the build
succeeded, the process failed and `elapsed >= d`. -/
theorem C3_availability_masks_run_failure (env : Env) (t : Test) (d : Nat)
    (hp : env.pathExists t.path = true)
    (hb : (env.exec 0).buildSuccess = true) :
    (elapsedOf (env.exec 0) < d →
      (Test.run env [isizeAllOnes] [some d] t ⟨0, 0, 0⟩).1 =
        RunOutcome.err (Error.AvailabilityLow d (elapsedOf (env.exec 0))))
    ∧ (d ≤ elapsedOf (env.exec 0) →
      (Test.run env [isizeAllOnes] [some d] t ⟨0, 0, 0⟩).1 =
        (if (env.exec 0).runSuccess then RunOutcome.ok
         else RunOutcome.err Error.RunFailed)) := by
  constructor
  · intro hlt
    rw [availRun_eq env t d hp, if_pos hlt]
  · intro hge
    rw [availRun_eq env t d hp, if_neg (by omega), if_neg (by simp [hb])]

/-- C3 counterexample: build succeeds, the process exits non-zero after
3 ms, required duration 10 ms. The claim demands `RunFailed`; the code
returns the availability failure `expected=10, found=3` instead. -/
theorem C3_counterexample :
    (envRunFail3.exec 0).runSuccess = false
    ∧ (Test.run envRunFail3 [isizeAllOnes] [some 10] (testAvail "a" 10) ⟨0, 0, 0⟩).1 =
        RunOutcome.err (Error.AvailabilityLow 10 3)
    ∧ (Test.run envRunFail3 [isizeAllOnes] [some 10] (testAvail "a" 10) ⟨0, 0, 0⟩).1 ≠
        RunOutcome.err Error.RunFailed := by decide

/-- C3 witness: concrete instance of `C3_availability_masks_run_failure`. -/
theorem C3_witness :
    (Test.run envRunFail3 [isizeAllOnes] [some 10] (testAvail "a" 10) ⟨0, 0, 0⟩).1 =
      RunOutcome.err (Error.AvailabilityLow 10 (elapsedOf (envRunFail3.exec 0))) :=
  (C3_availability_masks_run_failure envRunFail3 (testAvail "a" 10) 10 rfl rfl).1 (by decide)

/-- C7: confirmed. With no recognized filter token the trial list is
returned unchanged; with filters, exactly the trials whose path contains
at least one filter substring are retained (logical OR); and filtering
twice with the same arguments equals filtering once. -/
theorem C7_filter_semantics (args : List String) (tests : List ExpandedTest) :
    (filtersOf args = [] → filterTests args tests = tests)
    ∧ (filtersOf args ≠ [] → ∀ t, t ∈ filterTests args tests ↔
        t ∈ tests ∧ (filtersOf args).any (fun f => strContains t.test.path f) = true)
    ∧ filterTests args (filterTests args tests) = filterTests args tests := by
  refine ⟨?_, ?_, ?_⟩
  · intro h
    simp [filterTests, h]
  · intro h t
    have he : (filtersOf args).isEmpty = false := by
      cases hfa : filtersOf args with
      | nil => exact absurd hfa h
      | cons a l => rfl
    simp [filterTests, he, List.mem_filter]
  · by_cases he : (filtersOf args).isEmpty = true
    · simp [filterTests, he]
    · simp only [Bool.not_eq_true] at he
      simp [filterTests, he, List.filter_filter]

/-- C7 witness: concrete instance of `C7_filter_semantics`. -/
theorem C7_witness : filterTests [] [etEx] = [etEx] :=
  (C7_filter_semantics [] [etEx]).1 rfl

/-! ### Characterization of `expand_globs` -/

theorem mapIdx_congr_all {α β : Type} (l : List α) :
    ∀ f h : Nat → α → β, (∀ i a, f i a = h i a) → l.mapIdx f = l.mapIdx h := by
  induction l with
  | nil => intro f h _; rfl
  | cons x xs ih =>
    intro f h hfh
    rw [List.mapIdx_cons, List.mapIdx_cons, hfh 0 x,
      ih (fun i a => f (i + 1) a) (fun i a => h (i + 1) a) (fun i a => hfh (i + 1) a)]

theorem foldl_push_eq (g : Nat → String → ExpandedTest) :
    ∀ (paths : List String) (acc : List ExpandedTest),
    paths.foldl (fun a p => a ++ [g a.length p]) acc
      = acc ++ paths.mapIdx (fun i p => g (acc.length + i) p) := by
  intro paths
  induction paths with
  | nil => intro acc; simp
  | cons p ps ih =>
    intro acc
    rw [List.foldl_cons, ih, List.mapIdx_cons, List.append_assoc, List.singleton_append]
    congr 1
    congr 1
    apply mapIdx_congr_all
    intro i a
    have h : (acc ++ [g acc.length p]).length + i = acc.length + (i + 1) := by
      simp only [List.length_append, List.length_cons, List.length_nil]
      omega
    rw [h]

theorem expandStep_eq (fsGlob : String → Except Error (List String))
    (acc : List ExpandedTest) (t : Test) :
    expandStep fsGlob acc t = acc ++ (expandPaths fsGlob t).mapIdx
      (fun i te => { name := bin_name (acc.length + i), test := te.1, error := te.2 }) := by
  unfold expandStep expandPaths
  by_cases hw : t.path.data.contains '*' = true
  · simp only [hw, if_true]
    cases hg : globSorted fsGlob t.path with
    | ok paths =>
      simp only [hg]
      rw [foldl_push_eq (fun n q =>
        { name := bin_name n,
          test := { path := q, duration := t.duration, max_surge := t.max_surge,
                    expected := t.expected },
          error := none }) paths acc]
      congr 1
      apply List.ext_getElem?
      intro i
      simp only [List.getElem?_mapIdx, List.getElem?_map]
      cases paths[i]? <;> rfl
    | error e =>
      simp only [hg]
      simp
  · simp only [hw, if_false]
    simp

theorem foldl_expandStep_eq (fsGlob : String → Except Error (List String)) :
    ∀ (tests : List Test) (acc : List ExpandedTest),
    tests.foldl (expandStep fsGlob) acc
      = acc ++ (tests.flatMap (expandPaths fsGlob)).mapIdx
        (fun i te => { name := bin_name (acc.length + i), test := te.1, error := te.2 }) := by
  intro tests
  induction tests with
  | nil => intro acc; simp
  | cons t ts ih =>
    intro acc
    rw [List.foldl_cons, ih, expandStep_eq, List.flatMap_cons, List.mapIdx_append,
      List.append_assoc]
    congr 1
    congr 1
    apply mapIdx_congr_all
    intro i a
    have h : (acc ++ (expandPaths fsGlob t).mapIdx
        (fun i te => ({ name := bin_name (acc.length + i), test := te.1,
                        error := te.2 } : ExpandedTest))).length + i
        = acc.length + (i + (expandPaths fsGlob t).length) := by
      simp only [List.length_append, List.length_mapIdx]
      omega
    rw [h]

theorem expand_globs_eq (fsGlob : String → Except Error (List String)) (tests : List Test) :
    expand_globs fsGlob tests
      = (tests.flatMap (expandPaths fsGlob)).mapIdx
          (fun i te => { name := bin_name i, test := te.1, error := te.2 }) := by
  rw [expand_globs, foldl_expandStep_eq]
  simp

theorem expand_globs_names (fsGlob : String → Except Error (List String)) (tests : List Test) :
    (expand_globs fsGlob tests).map (fun x => x.name)
      = (List.range (tests.flatMap (expandPaths fsGlob)).length).map bin_name := by
  rw [expand_globs_eq]
  apply List.ext_getElem?
  intro i
  by_cases hi : i < (tests.flatMap (expandPaths fsGlob)).length
  · rw [List.getElem?_map, List.getElem?_map, List.getElem?_mapIdx,
      List.getElem?_eq_getElem hi, List.getElem?_range hi]
    rfl
  · rw [List.getElem?_map, List.getElem?_map, List.getElem?_mapIdx,
      List.getElem?_eq_none (le_of_not_lt hi),
      List.getElem?_eq_none (by rw [List.length_range]; exact le_of_not_lt hi)]
    rfl

theorem expand_globs_names_nodup (fsGlob : String → Except Error (List String))
    (tests : List Test) :
    ((expand_globs fsGlob tests).map (fun x => x.name)).Nodup := by
  rw [expand_globs_names]
  exact (List.nodup_range _).map bin_name_injective

/-- C6: confirmed. `expand_globs` equals the flattening of per-spec
contributions with names assigned positionally: a spec without a wildcard
contributes exactly one trial; a spec whose wildcard resolves contributes
one trial per match, matches sorted lexicographically, each match
inheriting the spec's duration, surge bound and mode; the names over the
final flattened order are `kaos{:03}` of the running index
(`bin_name 0, bin_name 1, ...`), hence pairwise distinct within one run. -/
theorem C6_expansion (fsGlob : String → Except Error (List String)) (specs : List Test) :
    expand_globs fsGlob specs
      = (specs.flatMap (expandPaths fsGlob)).mapIdx
          (fun i te => { name := bin_name i, test := te.1, error := te.2 })
    ∧ (∀ t : Test, t.path.data.contains '*' = false → expandPaths fsGlob t = [(t, none)])
    ∧ (∀ (t : Test) (ps : List String), t.path.data.contains '*' = true →
        fsGlob t.path = Except.ok ps →
        expandPaths fsGlob t = (sortPaths ps).map (fun p =>
          ({ path := p, duration := t.duration, max_surge := t.max_surge,
             expected := t.expected }, (none : Option Error)))
        ∧ List.Sorted (fun a b => pathLe a b = true) (sortPaths ps)
        ∧ (sortPaths ps).Perm ps)
    ∧ (expand_globs fsGlob specs).map (fun x => x.name)
        = (List.range (specs.flatMap (expandPaths fsGlob)).length).map bin_name
    ∧ ((expand_globs fsGlob specs).map (fun x => x.name)).Nodup := by
  refine ⟨expand_globs_eq fsGlob specs, ?_, ?_, expand_globs_names fsGlob specs,
    expand_globs_names_nodup fsGlob specs⟩
  · intro t hw
    unfold expandPaths
    rw [if_neg (by rw [Bool.not_eq_true]; exact hw)]
  · intro t ps hw hok
    refine ⟨?_, sortPaths_sorted ps, sortPaths_perm ps⟩
    unfold expandPaths
    rw [if_pos hw]
    simp only [globSorted, hok]

/-- C6 witness: concrete instance of `C6_expansion` (a non-wildcard spec
expands to exactly its own single trial). -/
theorem C6_witness : expandPaths fsPair (testAvail "plain.rs" 1) = [(testAvail "plain.rs" 1, none)] :=
  (C6_expansion fsPair [testAvail "plain.rs" 1]).2.1 (testAvail "plain.rs" 1) (by decide)

/-- C9: confirmed. A wildcard spec whose glob resolution fails contributes
exactly one placeholder trial carrying the error; expansion of the
surrounding specs continues unaffected; running the placeholder returns its
recorded error as that entry's per-entry failure without touching the
harness state, and the loop then continues with the remaining entries
(the failure does not abort the batch). -/
theorem C9_glob_error_placeholder (fsGlob : String → Except Error (List String)) (env : Env)
    (surges : List Int) (durations : List (Option Nat))
    (pre post : List Test) (w : Test) (e : Error)
    (hw : w.path.data.contains '*' = true)
    (herr : fsGlob w.path = Except.error e) :
    expandPaths fsGlob w = [(w, some e)]
    ∧ expand_globs fsGlob (pre ++ w :: post)
        = ((pre.flatMap (expandPaths fsGlob)) ++ (w, some e) :: post.flatMap (expandPaths fsGlob)).mapIdx
            (fun i te => { name := bin_name i, test := te.1, error := te.2 })
    ∧ (∀ (nm : String) (st : StepState),
        ExpandedTest.run env surges durations { name := nm, test := w, error := some e } st
          = (RunOutcome.err e, st))
    ∧ (∀ (nm : String) (st : StepState) (rest : List ExpandedTest),
        (runLoop env surges durations ({ name := nm, test := w, error := some e } :: rest) st).1
          = RunOutcome.err e :: (runLoop env surges durations rest st).1) := by
  have h1 : expandPaths fsGlob w = [(w, some e)] := by
    unfold expandPaths
    rw [if_pos hw]
    simp only [globSorted, herr]
  refine ⟨h1, ?_, fun nm st => rfl, fun nm st rest => rfl⟩
  rw [expand_globs_eq, List.flatMap_append, List.flatMap_cons, h1]
  rfl

/-- C9 witness: concrete instance of `C9_glob_error_placeholder`. -/
theorem C9_witness :
    expandPaths fsFail (testAvail "*x" 1) = [(testAvail "*x" 1, some (Error.GlobPattern "*x"))] :=
  (C9_glob_error_placeholder fsFail envAllOk7 [] [] [] [] (testAvail "*x" 1)
    (Error.GlobPattern "*x") (by decide) rfl).1

/-! ### Per-call and loop invariants of the trial executor -/

/-- `TestRunner::default()` runs at the top of every `Test::run` call
(src/run.rs:224), so each call creates (and seeds) exactly one fresh
pseudo-random source, in every branch. -/
theorem Test_run_runners (env : Env) (surges : List Int) (durations : List (Option Nat))
    (t : Test) (st : StepState) :
    (Test.run env surges durations t st).2.runners = st.runners + 1 := by
  simp only [Test.run]
  repeat' split
  all_goals rfl

theorem Test_run_chaotic_ok (env : Env) (surges : List Int) (durations : List (Option Nat))
    (t : Test) (st : StepState) (c : Int) (clock1 : Nat)
    (hs : surges[st.test_idx]? = some c) (hc : 0 < c)
    (hrc : runCases env t st.runners defaultCases 0 st.clock = (Except.ok (), clock1)) :
    Test.run env surges durations t st
      = (RunOutcome.ok, ⟨st.test_idx + 1, clock1, st.runners + 1⟩) := by
  have hm : c ≠ isizeAllOnes := by unfold isizeAllOnes; omega
  have hz : ¬ c ≤ 0 := by omega
  simp only [Test.run, hs, hm, hz, if_true, if_false, ne_eq, not_false_eq_true, hrc]

theorem Test_run_chaotic_err (env : Env) (surges : List Int) (durations : List (Option Nat))
    (t : Test) (st : StepState) (c : Int) (e : Error) (clock1 : Nat)
    (hs : surges[st.test_idx]? = some c) (hc : 0 < c)
    (hrc : runCases env t st.runners defaultCases 0 st.clock = (Except.error e, clock1)) :
    Test.run env surges durations t st
      = (RunOutcome.err (Error.PropFail e), ⟨st.test_idx + 1, clock1, st.runners + 1⟩) := by
  have hm : c ≠ isizeAllOnes := by unfold isizeAllOnes; omega
  have hz : ¬ c ≤ 0 := by omega
  simp only [Test.run, hs, hm, hz, if_true, if_false, ne_eq, not_false_eq_true, hrc]

theorem runLoop_cons_not_panicked (env : Env) (surges : List Int)
    (durations : List (Option Nat)) (x : ExpandedTest) (xs : List ExpandedTest)
    (st : StepState) (o : RunOutcome) (st1 : StepState)
    (h : ExpandedTest.run env surges durations x st = (o, st1))
    (ho : o ≠ RunOutcome.panicked) :
    runLoop env surges durations (x :: xs) st
      = (o :: (runLoop env surges durations xs st1).1,
         (runLoop env surges durations xs st1).2) := by
  cases o with
  | panicked => exact absurd rfl ho
  | ok => simp only [runLoop, h]
  | err e => simp only [runLoop, h]

/-- Counting invariant of the run loop over a plan whose surge vector is
all-chaotic (`replicate n c` with `0 < c`): every entry takes the chaotic
branch, creating one runner and advancing the cursor, and no entry panics. -/
theorem runLoop_chaotic_counts (env : Env) (durations : List (Option Nat)) (n : Nat) (c : Int)
    (hc : 0 < c) :
    ∀ (ets : List ExpandedTest) (st : StepState),
      (∀ x ∈ ets, x.error = none) →
      st.test_idx + ets.length ≤ n →
      (runLoop env (List.replicate n c) durations ets st).2.runners = st.runners + ets.length
      ∧ (runLoop env (List.replicate n c) durations ets st).2.test_idx
          = st.test_idx + ets.length
      ∧ (runLoop env (List.replicate n c) durations ets st).1.length = ets.length
      ∧ ((runLoop env (List.replicate n c) durations ets st).1.any isPanicked) = false := by
  intro ets
  induction ets with
  | nil => intro st _ _; exact ⟨rfl, rfl, rfl, rfl⟩
  | cons x xs ih =>
    intro st hx hle
    have hget : (List.replicate n c)[st.test_idx]? = some c := by
      rw [List.getElem?_replicate, if_pos (by simp at hle; omega)]
    have hxerr : x.error = none := (hx x (List.mem_cons_self x xs)).symm ▸ rfl
    have hexp : ExpandedTest.run env (List.replicate n c) durations x st
        = Test.run env (List.replicate n c) durations x.test st := by
      simp only [ExpandedTest.run, hx x (List.mem_cons_self x xs)]
    rcases hrc : runCases env x.test st.runners defaultCases 0 st.clock with ⟨res, c1⟩
    have hlen : st.test_idx + 1 + xs.length ≤ n := by simp at hle; omega
    cases res with
    | ok u =>
      cases u
      have hrun := Test_run_chaotic_ok env (List.replicate n c) durations x.test st c c1
        hget hc hrc
      have hcons := runLoop_cons_not_panicked env (List.replicate n c) durations x xs st
        RunOutcome.ok ⟨st.test_idx + 1, c1, st.runners + 1⟩ (hexp.trans hrun) (by simp)
      have hrec := ih ⟨st.test_idx + 1, c1, st.runners + 1⟩
        (fun y hy => hx y (List.mem_cons_of_mem x hy)) hlen
      rw [hcons]
      refine ⟨?_, ?_, ?_, ?_⟩
      · rw [hrec.1]; simp; omega
      · rw [hrec.2.1]; simp; omega
      · simp [hrec.2.2.1]
      · simp [List.any_cons, isPanicked, hrec.2.2.2]
    | error e =>
      have hrun := Test_run_chaotic_err env (List.replicate n c) durations x.test st c e c1
        hget hc hrc
      have hcons := runLoop_cons_not_panicked env (List.replicate n c) durations x xs st
        (RunOutcome.err (Error.PropFail e)) ⟨st.test_idx + 1, c1, st.runners + 1⟩
        (hexp.trans hrun) (by simp)
      have hrec := ih ⟨st.test_idx + 1, c1, st.runners + 1⟩
        (fun y hy => hx y (List.mem_cons_of_mem x hy)) hlen
      rw [hcons]
      refine ⟨?_, ?_, ?_, ?_⟩
      · rw [hrec.1]; simp; omega
      · rw [hrec.2.1]; simp; omega
      · simp [hrec.2.2.1]
      · simp [List.any_cons, isPanicked, hrec.2.2.2]

/-- One proptest case under a benign environment succeeds and advances the
invocation counter by one. -/
theorem runCase_ok (env : Env) (t : Test) (v : Int) (clock : Nat)
    (hp : env.pathExists t.path = true) (hv : 0 ≤ v)
    (hb : (env.exec clock).buildSuccess = true)
    (hr : (env.exec clock).runSuccess = true)
    (he : v.toNat ≤ elapsedOf (env.exec clock)) :
    runCase env t v clock = (Except.ok (), clock + 1) := by
  simp only [runCase, hp, hb, hr]
  rw [if_neg (not_lt.mpr hv), if_neg (by simp), if_neg (Nat.not_lt.mpr he)]
  simp

theorem runCases_all_ok (env : Env) (t : Test) (ridx : Nat)
    (h : ∀ i clock, runCase env t (env.samples ridx i) clock = (Except.ok (), clock + 1)) :
    ∀ fuel i clock, runCases env t ridx fuel i clock = (Except.ok (), clock + fuel) := by
  intro fuel
  induction fuel with
  | zero => intro i clock; rfl
  | succ fuel ih =>
    intro i clock
    simp only [runCases, h i clock, ih (i + 1) (clock + 1)]
    rw [Nat.add_assoc, Nat.add_comm 1 fuel]

theorem runCase_ok_of_env (env : Env) (t : Test)
    (hp : env.pathExists t.path = true)
    (hgood : ∀ k, (env.exec k).buildSuccess = true ∧ (env.exec k).runSuccess = true)
    (hsamp : ∀ r i, 0 ≤ env.samples r i ∧
        ∀ k, (env.samples r i).toNat ≤ elapsedOf (env.exec k)) :
    ∀ r i clock, runCase env t (env.samples r i) clock = (Except.ok (), clock + 1) :=
  fun r i clock => runCase_ok env t (env.samples r i) clock hp (hsamp r i).1
    (hgood clock).1 (hgood clock).2 ((hsamp r i).2 clock)

/-- Run loop over an all-chaotic plan in a benign environment: every entry
performs exactly `defaultCases` executor invocations and passes. -/
theorem runLoop_chaotic_allpass (env : Env) (durations : List (Option Nat)) (n : Nat)
    (c : Int) (hc : 0 < c)
    (hgood : ∀ k, (env.exec k).buildSuccess = true ∧ (env.exec k).runSuccess = true)
    (hsamp : ∀ r i, 0 ≤ env.samples r i ∧
        ∀ k, (env.samples r i).toNat ≤ elapsedOf (env.exec k)) :
    ∀ (ets : List ExpandedTest) (st : StepState),
      (∀ x ∈ ets, x.error = none ∧ env.pathExists x.test.path = true) →
      st.test_idx + ets.length ≤ n →
      runLoop env (List.replicate n c) durations ets st
        = (List.replicate ets.length RunOutcome.ok,
           ⟨st.test_idx + ets.length, st.clock + ets.length * defaultCases,
            st.runners + ets.length⟩) := by
  intro ets
  induction ets with
  | nil => intro st _ _; rfl
  | cons x xs ih =>
    intro st hx hle
    have hget : (List.replicate n c)[st.test_idx]? = some c := by
      rw [List.getElem?_replicate, if_pos (by simp at hle; omega)]
    have hall := runCase_ok_of_env env x.test (hx x (List.mem_cons_self x xs)).2 hgood hsamp
    have hrc := runCases_all_ok env x.test st.runners (hall st.runners) defaultCases 0 st.clock
    have hrun := Test_run_chaotic_ok env (List.replicate n c) durations x.test st c
      (st.clock + defaultCases) hget hc hrc
    have hexp : ExpandedTest.run env (List.replicate n c) durations x st
        = Test.run env (List.replicate n c) durations x.test st := by
      simp only [ExpandedTest.run, (hx x (List.mem_cons_self x xs)).1]
    have hcons := runLoop_cons_not_panicked env (List.replicate n c) durations x xs st
      RunOutcome.ok ⟨st.test_idx + 1, st.clock + defaultCases, st.runners + 1⟩
      (hexp.trans hrun) (by simp)
    have hlen : st.test_idx + 1 + xs.length ≤ n := by simp at hle; omega
    rw [hcons, ih ⟨st.test_idx + 1, st.clock + defaultCases, st.runners + 1⟩
      (fun y hy => hx y (List.mem_cons_of_mem x hy)) hlen]
    rw [Prod.mk.injEq]
    constructor
    · rw [List.length_cons, List.replicate_succ]
    · rw [StepState.mk.injEq]
      simp only [List.length_cons, defaultCases]
      omega

/-! ### The expanded shape of an all-chaotic plan -/

/-- The `Test` value `Runs::chaotic(path, _, max_surge)` registers. -/
def chaoticTest (p : String) (s : Nat) : Test :=
  { path := p, duration := none, max_surge := usizeToIsize s, expected := Expected.Chaotic }

theorem flatMap_replicate_singleton {α β : Type} (x : α) (g : α → List β) (y : β)
    (hg : g x = [y]) : ∀ n, (List.replicate n x).flatMap g = List.replicate n y := by
  intro n
  induction n with
  | zero => rfl
  | succ n ih =>
    rw [List.replicate_succ, List.flatMap_cons, hg, ih, List.replicate_succ,
      List.singleton_append]

theorem filterTests_nil_args (tests : List ExpandedTest) : filterTests [] tests = tests := rfl

theorem chaotic_plan_tests (fsGlob : String → Except Error (List String))
    (p : String) (n s : Nat) (hw : p.data.contains '*' = false) :
    filterTests [] (expand_globs fsGlob (Runs.chaotic [] p n s))
      = List.mapIdx (fun i te => { name := bin_name i, test := te.1, error := te.2 })
          (List.replicate n (chaoticTest p s, (none : Option Error))) := by
  rw [filterTests_nil_args, expand_globs_eq]
  have hexp : expandPaths fsGlob (chaoticTest p s) = [(chaoticTest p s, none)] := by
    unfold expandPaths
    rw [if_neg (by rw [Bool.not_eq_true]; exact hw)]
  have hplan : Runs.chaotic [] p n s = List.replicate n (chaoticTest p s) := by
    simp [Runs.chaotic, chaoticTest]
  rw [hplan, flatMap_replicate_singleton (chaoticTest p s) _ _ hexp n]

theorem chaotic_plan_surges (fsGlob : String → Except Error (List String))
    (p : String) (n s : Nat) (hw : p.data.contains '*' = false) :
    surgesOf (filterTests [] (expand_globs fsGlob (Runs.chaotic [] p n s)))
      = List.replicate n (usizeToIsize s) := by
  rw [chaotic_plan_tests fsGlob p n s hw]
  apply List.ext_getElem?
  intro i
  simp only [surgesOf]
  rw [List.getElem?_map, List.getElem?_mapIdx, List.getElem?_replicate, List.getElem?_replicate]
  by_cases hi : i < n
  · rw [if_pos hi, if_pos hi]; rfl
  · rw [if_neg hi, if_neg hi]; rfl

theorem chaotic_plan_mem (fsGlob : String → Except Error (List String))
    (p : String) (n s : Nat) (hw : p.data.contains '*' = false) :
    ∀ x ∈ filterTests [] (expand_globs fsGlob (Runs.chaotic [] p n s)),
      x.error = none ∧ x.test = chaoticTest p s := by
  rw [chaotic_plan_tests fsGlob p n s hw]
  intro x hx
  rw [List.mem_iff_getElem?] at hx
  obtain ⟨i, hi⟩ := hx
  rw [List.getElem?_mapIdx, List.getElem?_replicate] at hi
  by_cases hin : i < n
  · rw [if_pos hin] at hi
    injection hi with h
    rw [← h]
    exact ⟨rfl, rfl⟩
  · rw [if_neg hin] at hi
    cases hi

theorem chaotic_plan_length (fsGlob : String → Except Error (List String))
    (p : String) (n s : Nat) (hw : p.data.contains '*' = false) :
    (filterTests [] (expand_globs fsGlob (Runs.chaotic [] p n s))).length = n := by
  rw [chaotic_plan_tests fsGlob p n s hw, List.length_mapIdx, List.length_replicate]

/-- C4: corrected. A fresh `TestRunner::default()` — i.e. a freshly created
and seeded pseudo-random source — is constructed inside EVERY `Test::run`
call (src/run.rs:224), so an all-chaotic plan registered by
`Runs::chaotic(path, n, s)` creates `n` pseudo-random sources in one
harness invocation, not one seeded once per invocation. -/
theorem C4_fresh_runner_per_trial (env : Env)
    (fsGlob : String → Except Error (List String)) (crate p : String) (n s : Nat)
    (hw : p.data.contains '*' = false)
    (hs : 0 < usizeToIsize s) :
    (∀ (surges : List Int) (durations : List (Option Nat)) (t : Test) (st : StepState),
      (Test.run env surges durations t st).2.runners = st.runners + 1)
    ∧ (Runner.run env fsGlob [] crate (Runs.chaotic [] p n s)).finalState.runners = n := by
  refine ⟨fun surges durations t st => Test_run_runners env surges durations t st, ?_⟩
  show (runLoop env
      (surgesOf (filterTests [] (expand_globs fsGlob (Runs.chaotic [] p n s))))
      (staticDurations (filterTests [] (expand_globs fsGlob (Runs.chaotic [] p n s))))
      (filterTests [] (expand_globs fsGlob (Runs.chaotic [] p n s)))
      ⟨0, 0, 0⟩).2.runners = n
  rw [chaotic_plan_surges fsGlob p n s hw]
  have hcounts := runLoop_chaotic_counts env
    (staticDurations (filterTests [] (expand_globs fsGlob (Runs.chaotic [] p n s))))
    n (usizeToIsize s) hs
    (filterTests [] (expand_globs fsGlob (Runs.chaotic [] p n s))) ⟨0, 0, 0⟩
    (fun x hx => (chaotic_plan_mem fsGlob p n s hw x hx).1)
    (by rw [chaotic_plan_length fsGlob p n s hw]; exact Nat.le_of_eq (Nat.zero_add n))
  rw [hcounts.1, chaotic_plan_length fsGlob p n s hw]
  exact Nat.zero_add n

set_option maxRecDepth 20000 in
/-- C4 counterexample: `k.chaotic(path, 2, 10)` creates two pseudo-random
sources in a single harness invocation, not one. -/
theorem C4_counterexample :
    (Runner.run envAllOk7 fsEmpty [] "my" (Runs.chaotic [] "t" 2 10)).finalState.runners = 2
    ∧ (2 : Nat) ≠ 1 := by
  exact ⟨by decide, by decide⟩

/-- C4 witness: concrete instance of `C4_fresh_runner_per_trial`. -/
theorem C4_witness :
    (Runner.run envAllOk7 fsEmpty [] "my" (Runs.chaotic [] "t" 2 10)).finalState.runners = 2 :=
  (C4_fresh_runner_per_trial envAllOk7 fsEmpty "my" "t" 2 10 (by decide) (by decide)).2

/-- C5: corrected. `Runs::chaotic(path, runCount, maxSurge)` registers
`runCount` separate trials; in a benign environment each of them performs a
full proptest search of `defaultCases = 256` drawn cases (one executor
invocation per case), for `runCount * 256` executor invocations in total —
not `runCount` samples; a trial passes iff none of its drawn cases fails,
and here all pass. -/
theorem C5_chaotic_search_shape (env : Env)
    (fsGlob : String → Except Error (List String)) (crate p : String) (n s : Nat)
    (hw : p.data.contains '*' = false)
    (hs : 0 < usizeToIsize s)
    (hp : env.pathExists p = true)
    (hgood : ∀ k, (env.exec k).buildSuccess = true ∧ (env.exec k).runSuccess = true)
    (hsamp : ∀ r i, 0 ≤ env.samples r i ∧
        ∀ k, (env.samples r i).toNat ≤ elapsedOf (env.exec k)) :
    (Runs.chaotic [] p n s).length = n
    ∧ (Runner.run env fsGlob [] crate (Runs.chaotic [] p n s)).outcomes
        = List.replicate n RunOutcome.ok
    ∧ (Runner.run env fsGlob [] crate (Runs.chaotic [] p n s)).failures = 0
    ∧ (Runner.run env fsGlob [] crate (Runs.chaotic [] p n s)).finalState.clock
        = n * defaultCases
    ∧ defaultCases = 256 := by
  have hloop := runLoop_chaotic_allpass env
    (staticDurations (filterTests [] (expand_globs fsGlob (Runs.chaotic [] p n s))))
    n (usizeToIsize s) hs hgood hsamp
    (filterTests [] (expand_globs fsGlob (Runs.chaotic [] p n s))) ⟨0, 0, 0⟩
    (fun x hx => ⟨(chaotic_plan_mem fsGlob p n s hw x hx).1, by
      rw [(chaotic_plan_mem fsGlob p n s hw x hx).2]; exact hp⟩)
    (by rw [chaotic_plan_length fsGlob p n s hw]; exact Nat.le_of_eq (Nat.zero_add n))
  refine ⟨by simp [Runs.chaotic], ?_, ?_, ?_, rfl⟩
  · show (runLoop env
        (surgesOf (filterTests [] (expand_globs fsGlob (Runs.chaotic [] p n s))))
        (staticDurations (filterTests [] (expand_globs fsGlob (Runs.chaotic [] p n s))))
        (filterTests [] (expand_globs fsGlob (Runs.chaotic [] p n s)))
        ⟨0, 0, 0⟩).1 = List.replicate n RunOutcome.ok
    rw [chaotic_plan_surges fsGlob p n s hw, hloop,
      chaotic_plan_length fsGlob p n s hw]
  · show ((runLoop env
        (surgesOf (filterTests [] (expand_globs fsGlob (Runs.chaotic [] p n s))))
        (staticDurations (filterTests [] (expand_globs fsGlob (Runs.chaotic [] p n s))))
        (filterTests [] (expand_globs fsGlob (Runs.chaotic [] p n s)))
        ⟨0, 0, 0⟩).1).countP isErr = 0
    rw [chaotic_plan_surges fsGlob p n s hw, hloop]
    rw [List.countP_eq_zero]
    intro a ha
    rw [List.mem_replicate] at ha
    rw [ha.2]
    decide
  · show (runLoop env
        (surgesOf (filterTests [] (expand_globs fsGlob (Runs.chaotic [] p n s))))
        (staticDurations (filterTests [] (expand_globs fsGlob (Runs.chaotic [] p n s))))
        (filterTests [] (expand_globs fsGlob (Runs.chaotic [] p n s)))
        ⟨0, 0, 0⟩).2.clock = n * defaultCases
    rw [chaotic_plan_surges fsGlob p n s hw, hloop]
    show 0 + (filterTests [] (expand_globs fsGlob (Runs.chaotic [] p n s))).length
        * defaultCases = n * defaultCases
    rw [chaotic_plan_length fsGlob p n s hw, Nat.zero_add]

set_option maxRecDepth 20000 in
/-- C5 counterexample: for `k.chaotic(path, 1, 10)` (runCount = 1) the
search performs 256 executor invocations, not exactly 1. -/
theorem C5_counterexample :
    (Runner.run envAllOk7 fsEmpty [] "my" (Runs.chaotic [] "t" 1 10)).finalState.clock = 256
    ∧ (256 : Nat) ≠ 1 := by
  exact ⟨by decide, by decide⟩

/-- C5 witness: concrete instance of `C5_chaotic_search_shape`. -/
theorem C5_witness :
    (Runner.run envAllOk7 fsEmpty [] "my" (Runs.chaotic [] "t" 1 10)).finalState.clock
      = 1 * defaultCases :=
  (C5_chaotic_search_shape envAllOk7 fsEmpty "my" "t" 1 10 (by decide) (by decide) rfl
    (fun k => ⟨rfl, rfl⟩) (fun r i => ⟨le_refl 0, fun k => Nat.zero_le _⟩)).2.2.2.1

/-! ### The aggregator -/

theorem runLoop_length_of_no_panic (env : Env) (surges : List Int)
    (durations : List (Option Nat)) :
    ∀ (ets : List ExpandedTest) (st : StepState),
      ((runLoop env surges durations ets st).1.any isPanicked) = false →
      (runLoop env surges durations ets st).1.length = ets.length := by
  intro ets
  induction ets with
  | nil => intro st _; rfl
  | cons x xs ih =>
    intro st h
    rcases hr : ExpandedTest.run env surges durations x st with ⟨o, st1⟩
    cases o with
    | panicked =>
      exfalso
      have hloop : (runLoop env surges durations (x :: xs) st).1 = [RunOutcome.panicked] := by
        simp only [runLoop, hr]
      rw [hloop] at h
      simp [isPanicked] at h
    | ok =>
      rw [runLoop_cons_not_panicked env surges durations x xs st RunOutcome.ok st1 hr
        (by simp)] at h ⊢
      simp only [List.any_cons, isPanicked, Bool.false_or] at h
      simp only [List.length_cons, ih st1 h]
    | err e =>
      rw [runLoop_cons_not_panicked env surges durations x xs st (RunOutcome.err e) st1 hr
        (by simp)] at h ⊢
      simp only [List.any_cons, isPanicked, Bool.false_or] at h
      simp only [List.length_cons, ih st1 h]

/-- C8: the Result Aggregator, amended. When no trial panics, every entry is
processed (one outcome per expanded trial, in order), `failures` counts the
per-entry errors, and the harness-level panic is raised iff some entry
failed and the project name (`crate_name ++ "-tests"`) is not the nested
self-test guard `"kaos-tests"`; the carried text is
`"<failures> of <total> tests failed"` — the code says "tests", not
"trials". -/
theorem C8_summary_and_guard (env : Env) (fsGlob : String → Except Error (List String))
    (args : List String) (crate : String) (specs : List Test)
    (h : (Runner.run env fsGlob args crate specs).aborted = false) :
    (Runner.run env fsGlob args crate specs).len
        = (filterTests args (expand_globs fsGlob specs)).length
    ∧ (Runner.run env fsGlob args crate specs).outcomes.length
        = (Runner.run env fsGlob args crate specs).len
    ∧ (Runner.run env fsGlob args crate specs).failures
        = (Runner.run env fsGlob args crate specs).outcomes.countP isErr
    ∧ (0 < (Runner.run env fsGlob args crate specs).failures
        ∧ crate ++ "-tests" ≠ "kaos-tests" →
        (Runner.run env fsGlob args crate specs).raised
          = some (Nat.repr (Runner.run env fsGlob args crate specs).failures ++ " of "
              ++ Nat.repr (Runner.run env fsGlob args crate specs).len ++ " tests failed"))
    ∧ ((Runner.run env fsGlob args crate specs).failures = 0
        ∨ crate ++ "-tests" = "kaos-tests" →
        (Runner.run env fsGlob args crate specs).raised = none) := by
  have hr : (Runner.run env fsGlob args crate specs).raised
      = (if (Runner.run env fsGlob args crate specs).aborted = true then none
         else if 0 < (Runner.run env fsGlob args crate specs).failures
            ∧ crate ++ "-tests" ≠ "kaos-tests" then
           some (Nat.repr (Runner.run env fsGlob args crate specs).failures ++ " of "
             ++ Nat.repr (Runner.run env fsGlob args crate specs).len ++ " tests failed")
         else none) := rfl
  refine ⟨rfl, ?_, rfl, ?_, ?_⟩
  · exact runLoop_length_of_no_panic env _ _ _ _ h
  · intro hc
    rw [hr, h]
    simp only [Bool.false_eq_true, if_false]
    rw [if_pos hc]
  · intro hc
    rw [hr, h]
    simp only [Bool.false_eq_true, if_false]
    rw [if_neg ?_]
    rcases hc with hc | hc
    · intro hcontra
      rw [hc] at hcontra
      exact Nat.lt_irrefl 0 hcontra.1
    · exact fun hcontra => hcontra.2 hc

/-- C8 counterexample: a run with one failing and one passing entry raises
the message `"1 of 2 tests failed"`, not the claimed `"1 of 2 trials
failed"`. -/
theorem C8_counterexample :
    (Runner.run envAllOk7 fsFail [] "my"
      (Runs.available (Runs.available [] "*x" 1) "a" 5)).raised
      = some "1 of 2 tests failed"
    ∧ "1 of 2 tests failed" ≠ "1 of 2 trials failed" := by
  exact ⟨by decide, by decide⟩

/-- C8 witness: concrete instance of `C8_summary_and_guard`. -/
theorem C8_witness :
    (Runner.run envAllOk7 fsFail [] "my"
        (Runs.available (Runs.available [] "*x" 1) "a" 5)).raised
      = some (Nat.repr (Runner.run envAllOk7 fsFail [] "my"
            (Runs.available (Runs.available [] "*x" 1) "a" 5)).failures ++ " of "
          ++ Nat.repr (Runner.run envAllOk7 fsFail [] "my"
            (Runs.available (Runs.available [] "*x" 1) "a" 5)).len ++ " tests failed") :=
  (C8_summary_and_guard envAllOk7 fsFail [] "my"
    (Runs.available (Runs.available [] "*x" 1) "a" 5) (by decide)).2.2.2.1
    ⟨by decide, by decide⟩

/-- C10: confirmed. `usize::MAX as isize` is the all-ones sentinel `!0`
that marks `Available` entries, and no smaller `max_surge` collides with
it; so `k.chaotic(path, n, usize::MAX)` registers `n` trials that carry
the `Available` sentinel with no stored duration, and a trial dispatched
on that sentinel with an empty duration slot panics on
`durations[test_idx].unwrap()` without performing any chaotic search
(no proptest case runs, the invocation counter stays put), aborting the
harness — shown end-to-end for a one-trial plan. -/
theorem C10_usize_max_degrades_to_available (p : String) (n : Nat) :
    usizeToIsize usizeMax = isizeAllOnes
    ∧ (∀ m : Nat, m < usizeMax → usizeToIsize m ≠ isizeAllOnes)
    ∧ Runs.chaotic [] p n usizeMax
        = List.replicate n
            { path := p, duration := none, max_surge := isizeAllOnes,
              expected := Expected.Chaotic }
    ∧ (∀ (env : Env) (surges : List Int) (durations : List (Option Nat)) (t : Test)
        (st : StepState),
        surges[st.test_idx]? = some isizeAllOnes →
        durations[st.test_idx]? = some none →
        Test.run env surges durations t st
          = (RunOutcome.panicked, ⟨st.test_idx, st.clock, st.runners + 1⟩))
    ∧ (Runner.run envAllOk7 fsEmpty [] "my" (Runs.chaotic [] "t" 1 usizeMax)).outcomes
        = [RunOutcome.panicked]
    ∧ (Runner.run envAllOk7 fsEmpty [] "my" (Runs.chaotic [] "t" 1 usizeMax)).aborted
        = true := by
  have h1 : usizeToIsize usizeMax = isizeAllOnes := by decide
  refine ⟨h1, ?_, ?_, ?_, by decide, by decide⟩
  · intro m hm
    unfold usizeMax wordBits at hm
    unfold usizeToIsize isizeAllOnes wordBits
    have h63 : (2 : Nat) ^ (64 - 1) = 9223372036854775808 := by norm_num
    have h64i : (2 : Int) ^ 64 = 18446744073709551616 := by norm_num
    have h64n : (2 : Nat) ^ 64 = 18446744073709551616 := by norm_num
    rw [h63, h64i]
    rw [h64n] at hm
    split_ifs with hsplit
    · omega
    · omega
  · simp [Runs.chaotic, h1]
  · intro env surges durations t st hsg hd
    simp only [Test.run, hsg, hd, ne_eq, not_true_eq_false, if_false]

/-- C10 witness: concrete instance of `C10_usize_max_degrades_to_available`:
a trial dispatched on the `!0` sentinel with an absent stored duration
panics without running anything. -/
theorem C10_witness :
    Test.run envAllOk7 [isizeAllOnes] [none] (testAvail "a" 1) ⟨0, 0, 0⟩
      = (RunOutcome.panicked, ⟨0, 0, 1⟩) :=
  (C10_usize_max_degrades_to_available "t" 1).2.2.2.1 envAllOk7 [isizeAllOnes] [none]
    (testAvail "a" 1) ⟨0, 0, 0⟩ rfl rfl

end Kaos
